/-
Verification of the miniclaw control plane (routing, sessions, subagent
registry, announce pipeline, tool registry, agent runner, gateway
delivery) against its natural-language specification.

Each definition is a shallow embedding of the corresponding TypeScript
source. External effects (LLM streaming, tool execution, timers) are
modelled by explicit environment parameters; timestamps and fresh UUIDs
are passed explicitly; JavaScript Maps / objects become association
lists in insertion order; `Array.prototype.sort` (stable since ES2019)
becomes a stable insertion sort.
-/
import Mathlib

namespace Miniclaw

/-! ## Routing (src/routing: BindingManager, from gateway-cli bundle) -/

namespace Routing

/-- RoutePeer from routing/types.ts: `kind` plus platform id. -/
structure RoutePeer where
  kind : String
  id : String
deriving DecidableEq

/-- BindingMatch from routing/types.ts. `none` models an absent field. -/
structure BindingMatch where
  channel : String
  accountId : Option String := none
  peer : Option RoutePeer := none
  guildId : Option String := none
  teamId : Option String := none
deriving DecidableEq

/-- Binding from routing/types.ts (`match` is a Lean keyword, renamed `mtch`).
`priority` is a JS number, modelled as Int. -/
structure Binding where
  id : String
  agentId : String
  mtch : BindingMatch
  priority : Option Int := none
  createdAt : Nat := 0
  updatedAt : Nat := 0
deriving DecidableEq

/-- The sort key `a.priority ?? 100` used by `listBindings`. -/
def prioKey (b : Binding) : Int := b.priority.getD 100

/-- Insert `x` after every element whose key is `≤ prioKey x`.
Folding this over the store models the stable ascending
`bindings.sort((a, b) => (a.priority ?? 100) - (b.priority ?? 100))`. -/
def insertByPrio (x : Binding) : List Binding → List Binding
  | [] => [x]
  | y :: ys => if prioKey y ≤ prioKey x then y :: insertByPrio x ys else x :: y :: ys

/-- Stable ascending sort by `prioKey` (insertion order preserved on ties),
the behaviour of the stable `Array.prototype.sort` in `listBindings`. -/
def sortByPrio (l : List Binding) : List Binding :=
  l.foldl (fun acc x => insertByPrio x acc) []

/-- `BindingManager.listBindings`: the persisted bindings sorted ascending by
`(priority ?? 100)`. -/
def listBindings (store : List Binding) : List Binding := sortByPrio store

/-- RouteInput from routing/types.ts. -/
structure RouteInput where
  channel : String
  accountId : Option String := none
  peer : Option RoutePeer := none
  guildId : Option String := none
  teamId : Option String := none
deriving DecidableEq

inductive MatchedBy
  | peer | guild | team | account | channel | dflt
deriving DecidableEq

/-- RouteResult from routing/types.ts. -/
structure RouteResult where
  agentId : String
  matchedBy : MatchedBy
  binding : Option Binding := none
deriving DecidableEq

/-- JS truthiness of an optional string (`undefined` and `""` are falsy). -/
def truthyStr : Option String → Bool
  | none => false
  | some s => !(s == "")

/-- Tier-1 predicate: `b.match.peer?.kind === p.kind && b.match.peer?.id === p.id`. -/
def peerPred (p : RoutePeer) (b : Binding) : Bool :=
  match b.mtch.peer with
  | some q => q.kind == p.kind && q.id == p.id
  | none => false

/-- Tier-2 predicate: `b.match.guildId === input.guildId`. -/
def guildPred (g : String) (b : Binding) : Bool := b.mtch.guildId == some g

/-- Tier-3 predicate: `b.match.teamId === input.teamId`. -/
def teamPred (t : String) (b : Binding) : Bool := b.mtch.teamId == some t

/-- A binding with no peer / guild / team constraint:
`!b.match.peer && !b.match.guildId && !b.match.teamId`. JS falsiness makes
an empty-string `guildId`/`teamId` count as absent (such bindings are
storable, since the create endpoint validates only `match.channel`), while
`peer` is an object and is falsy only when absent. -/
def unconstrained (b : Binding) : Bool :=
  b.mtch.peer.isNone && !(truthyStr b.mtch.guildId) && !(truthyStr b.mtch.teamId)

/-- Tier-4 predicate: exact `accountId` match with no peer/guild/team constraint. -/
def accountPred (a : String) (b : Binding) : Bool :=
  b.mtch.accountId == some a && unconstrained b

/-- Tier-5 predicate: `accountId === "*" || !accountId`, no peer/guild/team.
(`!accountId` is JS-falsy: absent or the empty string.) -/
def channelDefaultPred (b : Binding) : Bool :=
  (b.mtch.accountId == some "*" || !(truthyStr b.mtch.accountId)) && unconstrained b

/-- Same-channel filter applied before all tiers. -/
def chanPred (inp : RouteInput) (b : Binding) : Bool := b.mtch.channel == inp.channel

/-- `BindingManager.resolveRoute`: sorted bindings, filtered to the input
channel, then `find` per tier in the order peer → guild → team → account →
channel-default → default. -/
def resolveRoute (store : List Binding) (inp : RouteInput) (defaultAgentId : String) :
    RouteResult :=
  let bindings := listBindings store
  let channelBindings := bindings.filter (chanPred inp)
  let tier1 : Option Binding :=
    match inp.peer with
    | some p => channelBindings.find? (peerPred p)
    | none => none
  match tier1 with
  | some b => { agentId := b.agentId, matchedBy := .peer, binding := some b }
  | none =>
  let tier2 : Option Binding :=
    match inp.guildId with
    | some g => if g == "" then none else channelBindings.find? (guildPred g)
    | none => none
  match tier2 with
  | some b => { agentId := b.agentId, matchedBy := .guild, binding := some b }
  | none =>
  let tier3 : Option Binding :=
    match inp.teamId with
    | some t => if t == "" then none else channelBindings.find? (teamPred t)
    | none => none
  match tier3 with
  | some b => { agentId := b.agentId, matchedBy := .team, binding := some b }
  | none =>
  let tier4 : Option Binding :=
    match inp.accountId with
    | some a => if a == "" then none else channelBindings.find? (accountPred a)
    | none => none
  match tier4 with
  | some b => { agentId := b.agentId, matchedBy := .account, binding := some b }
  | none =>
  match channelBindings.find? channelDefaultPred with
  | some b => { agentId := b.agentId, matchedBy := .channel, binding := some b }
  | none => { agentId := defaultAgentId, matchedBy := .dflt, binding := none }

/-- One step of the stable minimum: keep the earlier element unless the new
one has a strictly smaller key. -/
def minStep (best : Option Binding) (x : Binding) : Option Binding :=
  match best with
  | none => some x
  | some b => if prioKey x < prioKey b then some x else some b

/-- The binding with the lowest `(priority ?? 100)`, ties broken by
insertion (list) order. -/
def stableMinByPrio (l : List Binding) : Option Binding := l.foldl minStep none

/-- `minStep` restricted to elements satisfying `q`: the fold step of the
stable minimum over a filtered list. -/
def findStep (q : Binding → Bool) (best : Option Binding) (x : Binding) : Option Binding :=
  if q x then minStep best x else best

/-- Modelled from the spec words for the refinement claim C7: for each tier
in the strict order peer → guild → team → account → channel-default, the
candidates are the same-channel bindings matching the tier, in insertion
order, and the lowest-priority-number candidate wins with ties broken by
insertion order; otherwise fall back to the default agent. -/
def resolveRouteSpec (store : List Binding) (inp : RouteInput) (defaultAgentId : String) :
    RouteResult :=
  let cand (p : Binding → Bool) : Option Binding :=
    stableMinByPrio (store.filter (fun b => chanPred inp b && p b))
  let tier1 : Option Binding :=
    match inp.peer with
    | some p => cand (peerPred p)
    | none => none
  match tier1 with
  | some b => { agentId := b.agentId, matchedBy := .peer, binding := some b }
  | none =>
  let tier2 : Option Binding :=
    match inp.guildId with
    | some g => if g == "" then none else cand (guildPred g)
    | none => none
  match tier2 with
  | some b => { agentId := b.agentId, matchedBy := .guild, binding := some b }
  | none =>
  let tier3 : Option Binding :=
    match inp.teamId with
    | some t => if t == "" then none else cand (teamPred t)
    | none => none
  match tier3 with
  | some b => { agentId := b.agentId, matchedBy := .team, binding := some b }
  | none =>
  let tier4 : Option Binding :=
    match inp.accountId with
    | some a => if a == "" then none else cand (accountPred a)
    | none => none
  match tier4 with
  | some b => { agentId := b.agentId, matchedBy := .account, binding := some b }
  | none =>
  match cand channelDefaultPred with
  | some b => { agentId := b.agentId, matchedBy := .channel, binding := some b }
  | none => { agentId := defaultAgentId, matchedBy := .dflt, binding := none }

end Routing

/-! ## Session store (sessions/manager SessionManager) -/

namespace Sessions

/-- SessionEntry from sessions/types.ts. -/
structure SessionEntry where
  sessionId : String
  sessionKey : String
  agentId : String
  title : String
  createdAt : Nat
  updatedAt : Nat
  messageCount : Nat
  channel : String
  displayName : Option String := none
  subject : Option String := none
deriving DecidableEq

/-- The on-disk store `{sessions: {sessionId → SessionEntry}}`: a JS object
keyed by `sessionId`, in insertion order. -/
abbrev SessionStore := List SessionEntry

/-- `store.sessions[entry.sessionId] = entry`: replace the entry with the same
`sessionId` if present, else append (JS object key insertion order). -/
def setEntry (store : SessionStore) (e : SessionEntry) : SessionStore :=
  if store.any (fun s => s.sessionId == e.sessionId) then
    store.map (fun s => if s.sessionId == e.sessionId then e else s)
  else store ++ [e]

/-- `SessionManager.inferChannel`. -/
def inferChannel (sessionKey : String) : String :=
  if sessionKey.startsWith "telegram:" then "telegram"
  else if sessionKey.startsWith "web:" then "web"
  else if sessionKey.startsWith "cron:" then "cron"
  else if sessionKey.startsWith "discord:" then "discord"
  else if sessionKey.startsWith "slack:" then "slack"
  else "websocket"

/-- `SessionManager.createSession`: unconditionally inserts a fresh entry.
`sessionId` stands for the generated `randomUUID()` and `now` for
`Date.now()`, passed explicitly. Returns the updated store and the entry. -/
def createSession (store : SessionStore) (sessionKey agentId : String)
    (title : Option String) (channel : Option String)
    (sessionId : String) (now : Nat) : SessionStore × SessionEntry :=
  let inferredChannel := channel.getD (inferChannel sessionKey)
  let entry : SessionEntry :=
    { sessionId := sessionId
      sessionKey := sessionKey
      agentId := agentId
      title := title.getD ("Session " ++ toString (store.length + 1))
      createdAt := now
      updatedAt := now
      messageCount := 0
      channel := inferredChannel }
  (setEntry store entry, entry)

/-- `SessionManager.findBySessionKey`: first entry with the key, in object
insertion order (`Object.values(...).find`). -/
def findBySessionKey (store : SessionStore) (sessionKey : String) : Option SessionEntry :=
  store.find? (fun s => s.sessionKey == sessionKey)

/-- `SessionManager.getOrCreate`: return the existing session for the key or
create one (with no explicit title). -/
def getOrCreate (store : SessionStore) (sessionKey agentId : String)
    (channel : Option String) (sessionId : String) (now : Nat) :
    SessionStore × SessionEntry :=
  match findBySessionKey store sessionKey with
  | some existing => (store, existing)
  | none => createSession store sessionKey agentId none channel sessionId now

/-- `SessionManager.deleteSession` restricted to the metadata store. -/
def deleteSession (store : SessionStore) (sessionId : String) : SessionStore :=
  store.filter (fun s => !(s.sessionId == sessionId))

/-- The spec invariant: at most one session per `sessionKey`. -/
def keyUnique (store : SessionStore) : Prop :=
  List.Pairwise (fun a b => a.sessionKey ≠ b.sessionKey) store

instance decKeyUnique (store : SessionStore) : Decidable (keyUnique store) :=
  inferInstanceAs (Decidable (List.Pairwise _ store))

end Sessions

/-! ## Subagent registry and cleanup flow
(agents/subagent/registry.ts, agents/tools/subagent-spawn.ts) -/

namespace Subagent

inductive Cleanup
  | delete | keep
deriving DecidableEq

/-- SubagentOutcome from agents/subagent/types.ts. -/
structure SubagentOutcome where
  status : String
  error : Option String := none
deriving DecidableEq

/-- SubagentRunRecord from agents/subagent/types.ts. -/
structure SubagentRunRecord where
  runId : String
  childSessionKey : String
  requesterSessionKey : String
  task : String
  label : Option String := none
  cleanup : Cleanup
  createdAt : Nat
  startedAt : Option Nat := none
  endedAt : Option Nat := none
  outcome : Option SubagentOutcome := none
  archiveAtMs : Option Nat := none
  cleanupCompletedAt : Option Nat := none
  cleanupHandled : Option Bool := none
deriving DecidableEq

/-- The registry `runs: Map<string, SubagentRunRecord>` in insertion order. -/
abbrev Registry := List (String × SubagentRunRecord)

/-- `Map.get`. -/
def regGet (reg : Registry) (runId : String) : Option SubagentRunRecord :=
  (reg.find? (fun kv => kv.1 == runId)).map (·.2)

/-- `Map.set`: replace in place or append. -/
def regSet (reg : Registry) (runId : String) (rec : SubagentRunRecord) : Registry :=
  if reg.any (fun kv => kv.1 == runId) then
    reg.map (fun kv => if kv.1 == runId then (runId, rec) else kv)
  else reg ++ [(runId, rec)]

/-- `Map.delete`. -/
def regDelete (reg : Registry) (runId : String) : Registry :=
  reg.filter (fun kv => !(kv.1 == runId))

/-- `ARCHIVE_AFTER_MINUTES = 60`. -/
def ARCHIVE_AFTER_MINUTES : Nat := 60

/-- `SubagentRegistry.register` (persist is a no-op in the model; `now` is
`Date.now()`). `archiveAtMs = now + archiveMinutes * 60_000` when the
minutes are positive. -/
def register (reg : Registry)
    (runId childSessionKey requesterSessionKey task : String)
    (label : Option String) (cleanup : Cleanup)
    (archiveAfterMinutes : Option Nat) (now : Nat) : Registry :=
  let archiveMinutes := archiveAfterMinutes.getD ARCHIVE_AFTER_MINUTES
  let archiveAtMs := if archiveMinutes > 0 then some (now + archiveMinutes * 60000) else none
  let record : SubagentRunRecord :=
    { runId := runId
      childSessionKey := childSessionKey
      requesterSessionKey := requesterSessionKey
      task := task
      label := label
      cleanup := cleanup
      createdAt := now
      startedAt := some now
      archiveAtMs := archiveAtMs
      cleanupHandled := some false }
  regSet reg runId record

/-- `SubagentRegistry.markStarted`. -/
def markStarted (reg : Registry) (runId : String) (now : Nat) : Registry :=
  match regGet reg runId with
  | none => reg
  | some r => regSet reg runId { r with startedAt := some now }

/-- `SubagentRegistry.markCompleted` (the completion callback does not touch
the registry or the session store). -/
def markCompleted (reg : Registry) (runId : String) (outcome : SubagentOutcome)
    (now : Nat) : Registry :=
  match regGet reg runId with
  | none => reg
  | some r => regSet reg runId { r with endedAt := some now, outcome := some outcome }

/-- `SubagentRegistry.finalizeCleanup`: for `cleanup=delete` it deletes the
registry record; for `cleanup=keep` it stamps `cleanupCompletedAt` when the
announce happened, else resets `cleanupHandled`. It never touches the
session store. -/
def finalizeCleanup (reg : Registry) (runId : String) (didAnnounce : Bool)
    (now : Nat) : Registry :=
  match regGet reg runId with
  | none => reg
  | some r =>
    match r.cleanup with
    | .delete => regDelete reg runId
    | .keep =>
      if !didAnnounce then regSet reg runId { r with cleanupHandled := some false }
      else regSet reg runId { r with cleanupCompletedAt := some now }

/-- `SubagentRegistry.sweep`: remove every record whose `archiveAtMs ≤ now`. -/
def sweep (reg : Registry) (now : Nat) : Registry :=
  reg.filter (fun kv =>
    match kv.2.archiveAtMs with
    | none => true
    | some d => decide (now < d))

/-- The session-store and registry effects of one complete subagent run, as
performed by `subagentSpawnTool.execute` and `runSubagentInBackground`:
create the child session `subagent:<runId>`, register the run, mark it
started then completed, run the announce flow (which only enqueues onto the
in-memory announce queue and touches neither store), and finally
`finalizeCleanup(runId, true)`. -/
def subagentFlow (store0 : Sessions.SessionStore) (reg0 : Registry)
    (runId sessionId requesterSessionKey task : String) (label : Option String)
    (cleanup : Cleanup) (t0 t1 t2 t3 : Nat) :
    Sessions.SessionStore × Registry :=
  let childSessionKey := "subagent:" ++ runId
  let title := label.getD ("Subagent: " ++ task.take 30 ++ "...")
  let (store1, _entry) :=
    Sessions.createSession store0 childSessionKey "default" (some title) none sessionId t0
  let reg1 := register reg0 runId childSessionKey requesterSessionKey task label cleanup none t0
  let reg2 := markStarted reg1 runId t1
  let reg3 := markCompleted reg2 runId { status := "ok" } t2
  let reg4 := finalizeCleanup reg3 runId true t3
  (store1, reg4)

end Subagent

/-! ## Announce pipeline (agents/subagent/announce.ts) -/

namespace Announce

/-- AnnounceParams from announce.ts. -/
structure AnnounceParams where
  childSessionKey : String
  childRunId : String
  requesterSessionKey : String
  requesterChannel : String
  task : String
  label : Option String := none
  startedAt : Option Nat := none
  endedAt : Option Nat := none
  outcome : Option Subagent.SubagentOutcome := none
  cleanup : Subagent.Cleanup
deriving DecidableEq

/-- QueuedAnnounce from announce.ts. -/
structure QueuedAnnounce where
  params : AnnounceParams
  findings : String
  enqueuedAt : Nat
deriving DecidableEq

/-- `DEBOUNCE_MS = 2000`. -/
def DEBOUNCE_MS : Nat := 2000

/-- `formatDuration`. -/
def formatDuration (ms : Nat) : String :=
  let seconds := ms / 1000
  if seconds < 60 then toString seconds ++ "s"
  else
    let minutes := seconds / 60
    let remainingSeconds := seconds % 60
    if minutes < 60 then toString minutes ++ "m" ++ toString remainingSeconds ++ "s"
    else
      let hours := minutes / 60
      let remainingMinutes := minutes % 60
      toString hours ++ "h" ++ toString remainingMinutes ++ "m"

/-- Duration string used by both trigger builders:
`endedAt && startedAt ? formatDuration(endedAt - startedAt) : 'unknown'`. -/
def durationText (p : AnnounceParams) : String :=
  match p.endedAt, p.startedAt with
  | some e, some s => formatDuration (e - s)
  | _, _ => "unknown"

/-- The status phrase of `buildTriggerMessage`. -/
def statusText (p : AnnounceParams) : String :=
  match p.outcome with
  | some o =>
    if o.status == "ok" then "completed successfully"
    else if o.status == "error" then "failed: " ++ (o.error.getD "unknown error")
    else "finished with unknown status"
  | none => "finished with unknown status"

/-- `lines.join('\n')`. -/
def joinLines : List String → String
  | [] => ""
  | [x] => x
  | x :: xs => x ++ "\n" ++ joinLines xs

/-- `buildTriggerMessage`: the single-completion trigger sent to the
requester agent. -/
def buildTriggerMessage (p : AnnounceParams) (findings : String) : String :=
  let taskLabel := p.label.getD (p.task.take 50)
  joinLines
    [ "A background task \"" ++ taskLabel ++ "\" just " ++ statusText p ++ "."
    , ""
    , "Findings:"
    , if findings == "" then "(no output)" else findings
    , ""
    , "Duration: " ++ durationText p
    , ""
    , "Summarize this naturally for the user. Keep it brief (1-2 sentences)."
    , "Flow it into the conversation naturally."
    , "Do not mention technical details like duration or that this was a background task."
    , "You can respond with NO_REPLY if no announcement is needed." ]

/-- One per-task block of `buildCollectedTriggerMessage` (`i` counts from 0). -/
def taskBlock (i : Nat) (item : QueuedAnnounce) : List String :=
  let taskLabel := item.params.label.getD (item.params.task.take 50)
  let statusLabel :=
    match item.params.outcome with
    | some o => if o.status == "ok" then "completed" else "failed"
    | none => "failed"
  [ "--- Task " ++ toString (i + 1) ++ ": \"" ++ taskLabel ++ "\" (" ++ statusLabel ++ ") ---"
  , if item.findings == "" then "(no output)" else item.findings
  , "" ]

/-- The numbered per-task blocks, in list order. -/
def taskBlocks : Nat → List QueuedAnnounce → List String
  | _, [] => []
  | i, item :: rest => taskBlock i item ++ taskBlocks (i + 1) rest

/-- `buildCollectedTriggerMessage`: header `[N background tasks completed]`,
then the per-task blocks in queue order, then the closing instructions. -/
def buildCollectedTriggerMessage (items : List QueuedAnnounce) : String :=
  joinLines
    ([ "[" ++ toString items.length ++ " background tasks completed]"
     , ""
     , "Below are the results from multiple parallel tasks. Summarize them together for the user."
     , "Keep it concise and natural. Do not list them mechanically."
     , "" ]
     ++ taskBlocks 0 items
     ++ [ "Summarize all findings together in a natural, conversational way."
        , "If user asked for a comparison table, create one." ])

/-- The announce queue of one requester sessionKey (`ANNOUNCE_QUEUES` entry)
together with the `triggerAgent` calls observed so far. `deadline` models
the pending debounce timer. The single-threaded event loop makes each
enqueue and each drain atomic, so the `draining` reentrancy flag is always
false when a timer fires and is omitted. -/
structure AnnState where
  items : List QueuedAnnounce
  deadline : Option Nat
  calls : List String
deriving DecidableEq

def initAnnState : AnnState := { items := [], deadline := none, calls := [] }

/-- `drainQueue`: nothing to do on an empty queue; a single queued item sends
the individual trigger; several send one collected trigger. The timer handle
is cleared on entry. -/
def drainQueue (s : AnnState) : AnnState :=
  match s.items with
  | [] => { s with deadline := none }
  | [item] =>
    { items := []
      deadline := none
      calls := s.calls ++ [buildTriggerMessage item.params item.findings] }
  | items =>
    { items := []
      deadline := none
      calls := s.calls ++ [buildCollectedTriggerMessage items] }

/-- Deliver the pending timer callback if its deadline has passed by time
`t`: the event loop runs the drain before any later announce enqueue. -/
def fireIfDue (t : Nat) (s : AnnState) : AnnState :=
  match s.deadline with
  | some d => if d ≤ t then drainQueue s else s
  | none => s

/-- `enqueueAnnounce` at wall-clock time `t`: push the item and reset the
debounce timer to `t + DEBOUNCE_MS` (clearing any pending one). -/
def enqueueAnnounce (t : Nat) (p : AnnounceParams) (findings : String)
    (s : AnnState) : AnnState :=
  let s := fireIfDue t s
  { items := s.items ++ [{ params := p, findings := findings, enqueuedAt := t }]
    deadline := some (t + DEBOUNCE_MS)
    calls := s.calls }

/-- Run a timeline of timestamped announce enqueues (times nondecreasing). -/
def runTimeline (evs : List (Nat × AnnounceParams × String)) (s : AnnState) : AnnState :=
  evs.foldl (fun s ev => enqueueAnnounce ev.1 ev.2.1 ev.2.2 s) s

/-- Let the last pending debounce timer fire. -/
def finishTimeline (s : AnnState) : AnnState :=
  match s.deadline with
  | some _ => drainQueue s
  | none => s

end Announce

/-! ## Tool registry (agents/tools/index.ts) -/

namespace Tools

/-- A registered tool. Only the name is relevant to the registry logic;
`description`, `inputSchema` and the effectful `execute` are carried by the
runner environment instead. -/
structure Tool where
  name : String
deriving DecidableEq

/-- `builtinTools`, in registration order. -/
def builtinTools : List Tool :=
  [ { name := "bash" }, { name := "read" }, { name := "write" }, { name := "cron" }
  , { name := "web_fetch" }, { name := "subagent_spawn" }, { name := "telegram_send" }
  , { name := "session_send" }, { name := "skill" } ]

/-- `SUBAGENT_DENIED_TOOLS`. -/
def SUBAGENT_DENIED_TOOLS : List String := ["subagent_spawn"]

/-- `getAllTools(options)`: builtin plus dynamically loaded Composio tools,
with the denied tools filtered out only when `isSubagent` is set. -/
def getAllTools (composioTools : List Tool) (isSubagent : Bool) : List Tool :=
  let allTools := builtinTools ++ composioTools
  if isSubagent then
    allTools.filter (fun t => !(SUBAGENT_DENIED_TOOLS.contains t.name))
  else allTools

/-- `getToolByName(name)`: note the source calls `getAllTools()` with no
options here, so the subagent filter is not applied. -/
def getToolByName (composioTools : List Tool) (name : String) : Option Tool :=
  (getAllTools composioTools false).find? (fun t => t.name == name)

/-- `getToolSchemas(options)` reduced to the offered tool names (the schema
objects carry `name`, `description`, `parameters`; only the name matters
here). -/
def getToolSchemaNames (composioTools : List Tool) (isSubagent : Bool) : List String :=
  (getAllTools composioTools isSubagent).map (·.name)

end Tools

/-! ## AgentRunner (agents/runner.ts, `run` and its loop)

The LLM client, tool execution and concurrent `inject` calls are external
effects; they are modelled by an explicit environment. Fuel `10 - iterations`
encodes the `while (iterations < maxIterations)` guard exactly, since every
pass of either loop increments `iterations` once. -/

/-- JS `String.prototype.trim`: strip leading and trailing whitespace
(modelled over the character list; the ASCII whitespace set suffices for
the sentinel comparisons it is used in). -/
def trimStr (s : String) : String :=
  let ws := fun c : Char => c == ' ' || c == '\t' || c == '\n' || c == '\r'
  String.mk (((s.data.dropWhile ws).reverse.dropWhile ws).reverse)

namespace Runner

inductive Role
  | system | user | assistant | tool
deriving DecidableEq

/-- One declared tool call of an assistant message (`tool_calls[i]`); the
argument JSON (`JSON.stringify(tc.input)`) is kept opaque. -/
structure ToolCallSpec where
  id : String
  name : String
  args : String
deriving DecidableEq

/-- A conversation / transcript message. `toolCallId` is `tool_call_id` of
tool-result entries; `toolCalls` is `tool_calls` of assistant entries. -/
structure Msg where
  role : Role
  content : String
  toolCallId : Option String := none
  toolCalls : List ToolCallSpec := []
deriving DecidableEq

/-- The aggregated result of one `llm.chat` call. -/
structure LLMResponse where
  content : String
  toolCalls : List ToolCallSpec
deriving DecidableEq

/-- The behaviour of one tool execution: the string it returns, plus any
transcript entries it appends on side channels (e.g. `sendToSession` back
into this session) while running. -/
structure ToolImpl where
  output : String
  sideAppends : List Msg := []
deriving DecidableEq

/-- The runner environment: the model (response as a function of the exact
conversation sent), the tool registry with each tool's execution behaviour
(`getToolByName` plus `execute`), and the steer injections that arrive
while the k-th chat call is awaited. -/
structure Env where
  chat : List Msg → LLMResponse
  lookupTool : String → Option ToolImpl
  injectArrivals : Nat → List String

/-- The mutable state of one `run` invocation. `transcript` is the persisted
session log (`persistMessage` targets), `messages` the in-memory
conversation, `chatLog` records the conversation passed to each chat call
in order, `chatCount` its length. -/
structure RunState where
  messages : List Msg
  transcript : List Msg
  injected : List String
  iterations : Nat
  finalResponse : String
  emptyRetries : Nat
  chatCount : Nat
  chatLog : List (List Msg)
deriving DecidableEq

/-- `persistMessage`: append to the session transcript only. -/
def persistMessage (s : RunState) (m : Msg) : RunState :=
  { s with transcript := s.transcript ++ [m] }

/-- `this.messages.push(msg)` followed by `persistMessage(msg)`. -/
def pushAndPersist (s : RunState) (m : Msg) : RunState :=
  { s with messages := s.messages ++ [m], transcript := s.transcript ++ [m] }

/-- The sync block at the top of `run`: if the transcript has grown beyond
the in-memory view, append the new tail (`transcript.slice(messages.length)`). -/
def syncTranscript (s : RunState) : RunState :=
  if s.messages.length < s.transcript.length then
    { s with messages := s.messages ++ s.transcript.drop s.messages.length }
  else s

def interruptContent (inj : String) : String :=
  "[INTERRUPT] New message from user: " ++ inj

def interruptMsg (inj : String) : Msg :=
  { role := .user, content := interruptContent inj }

/-- The injected-message drain at the top of each main-loop iteration: shift
one injected message and push the `[INTERRUPT]` user entry onto the
in-memory conversation. There is no `persistMessage` here. -/
def drainInjectedMain (s : RunState) : RunState :=
  match s.injected with
  | [] => s
  | inj :: rest =>
    { s with injected := rest, messages := s.messages ++ [interruptMsg inj] }

/-- The injected-message drain of the post-loop phase: shift one message,
increment `iterations`, and both push and persist the `[INTERRUPT]` entry. -/
def drainInjectedPost (s : RunState) : RunState :=
  match s.injected with
  | [] => s
  | inj :: rest =>
    pushAndPersist { s with injected := rest, iterations := s.iterations + 1 }
      (interruptMsg inj)

/-- `await this.llm.chat(this.messages, ...)`: record the conversation sent,
obtain the response, and collect the steer injections that arrived during
the await. -/
def callLLM (env : Env) (s : RunState) : LLMResponse × RunState :=
  let resp := env.chat s.messages
  ( resp
  , { s with
      chatCount := s.chatCount + 1
      chatLog := s.chatLog ++ [s.messages]
      injected := s.injected ++ env.injectArrivals s.chatCount } )

/-- The assistant message recording declared tool calls
(`content: response.content || ''` plus the mapped `tool_calls`). -/
def assistantToolMsg (resp : LLMResponse) : Msg :=
  { role := .assistant, content := resp.content, toolCalls := resp.toolCalls }

/-- Execute one declared tool call: unknown tools append the
`Error: Unknown tool <name>` result; known tools run (side appends land on
the transcript during execution) and their output is appended as the tool
result entry. -/
def execToolCall (env : Env) (s : RunState) (tc : ToolCallSpec) : RunState :=
  match env.lookupTool tc.name with
  | none =>
    pushAndPersist s
      { role := .tool, content := "Error: Unknown tool " ++ tc.name, toolCallId := some tc.id }
  | some impl =>
    let s := { s with transcript := s.transcript ++ impl.sideAppends }
    pushAndPersist s { role := .tool, content := impl.output, toolCallId := some tc.id }

/-- Execute the declared tool calls in declaration order. -/
def execToolCalls (env : Env) (s : RunState) (tcs : List ToolCallSpec) : RunState :=
  tcs.foldl (execToolCall env) s

/-- `maxIterations = 10`. -/
def maxIterations : Nat := 10

/-- One pass of the main loop body: bump `iterations`, drain one injected
message into the conversation, call the model, record any text as the
candidate final response, then either execute tool calls (and continue), or
append the final assistant text, retrying an empty response up to twice.
The boolean is `true` for `continue` and `false` for `break`. -/
def mainStep (env : Env) (s : RunState) : RunState × Bool :=
  let s := { s with iterations := s.iterations + 1 }
  let s := drainInjectedMain s
  let (resp, s) := callLLM env s
  let s := if resp.content == "" then s else { s with finalResponse := resp.content }
  if resp.toolCalls.isEmpty then
    if resp.content == "" then
      if s.emptyRetries < 2 then ({ s with emptyRetries := s.emptyRetries + 1 }, true)
      else if s.injected.isEmpty then (s, false)
      else (s, true)
    else
      let s := pushAndPersist s { role := .assistant, content := resp.content }
      if s.injected.isEmpty then (s, false) else (s, true)
  else
    let s := pushAndPersist s (assistantToolMsg resp)
    (execToolCalls env s resp.toolCalls, true)

/-- The main loop of `run` with `fuel = maxIterations - iterations` encoding
the `while (iterations < maxIterations)` guard (every pass increments
`iterations` exactly once). -/
def mainLoop (env : Env) : Nat → RunState → RunState
  | 0, s => s
  | fuel + 1, s =>
    match mainStep env s with
    | (s', true) => mainLoop env fuel s'
    | (s', false) => s'

/-- One pass of the post-loop drain phase: persist the `[INTERRUPT]` entry
(and bump `iterations`), call the model, append a final assistant text if
any, and execute any tool calls. -/
def drainStep (env : Env) (s : RunState) : RunState :=
  let s := drainInjectedPost s
  let (resp, s) := callLLM env s
  let s :=
    if resp.content == "" then s
    else
      pushAndPersist { s with finalResponse := resp.content }
        { role := .assistant, content := resp.content }
  if resp.toolCalls.isEmpty then s
  else execToolCalls env (pushAndPersist s (assistantToolMsg resp)) resp.toolCalls

/-- The post-loop drain phase: `while (injectedMessages.length > 0 &&
iterations < maxIterations)`, with the same fuel encoding of the shared
iteration budget. -/
def drainLoop (env : Env) : Nat → RunState → RunState
  | 0, s => s
  | fuel + 1, s =>
    if s.injected.isEmpty then s
    else drainLoop env fuel (drainStep env s)

inductive Source
  | user | cron | subagentAnnounce
deriving DecidableEq

/-- The source framing of the incoming message (§4.4): cron and
subagent-announce text is wrapped, ordinary user text is not; all three are
user-role entries. -/
def frameSource (source : Source) (userMessage : String) : Msg :=
  match source with
  | .cron =>
    { role := .user
      content := "[SCHEDULED TASK] Execute the following scheduled task and send the result to the user:\n\n"
        ++ userMessage }
  | .subagentAnnounce =>
    { role := .user, content := "[SUBAGENT RESULT] " ++ userMessage }
  | .user => { role := .user, content := userMessage }

/-- The runner state carried over from previous runs of the same bound
session. -/
structure RunInit where
  messages : List Msg
  transcript : List Msg
  injected : List String
deriving DecidableEq

/-- The part of `run` before the loop: sync the transcript once, seed the
system prompt on a fresh conversation (the composed prompt is a parameter),
frame and persist the incoming message. -/
def setupState (source : Source) (userMessage systemPrompt : String)
    (init : RunInit) : RunState :=
  let s : RunState :=
    { messages := init.messages, transcript := init.transcript
      injected := init.injected, iterations := 0, finalResponse := ""
      emptyRetries := 0, chatCount := 0, chatLog := [] }
  let s := syncTranscript s
  let s :=
    if s.messages.isEmpty then
      pushAndPersist s { role := .system, content := systemPrompt }
    else s
  pushAndPersist s (frameSource source userMessage)

/-- `AgentRunner.run`: the setup above, then the bounded main loop followed
by the bounded drain phase (the two loops share the `maxIterations`
budget through `iterations`). -/
def run (env : Env) (source : Source) (userMessage systemPrompt : String)
    (init : RunInit) : RunState :=
  let s := setupState source userMessage systemPrompt init
  let s := mainLoop env (maxIterations - s.iterations) s
  drainLoop env (maxIterations - s.iterations) s

/-- The value `run` returns: the final response, or the `(done)` sentinel
when the loop produced no (non-whitespace) content
(`if (!finalResponse.trim()) finalResponse = '(done)'`). -/
def runResult (s : RunState) : String :=
  if trimStr s.finalResponse == "" then "(done)" else s.finalResponse

end Runner

/-! ## Gateway final delivery (gateway/server.ts, `processMessage` onComplete) -/

namespace Gateway

/-- The `onComplete` callback of `Gateway.processMessage`: `NO_REPLY` and
`(done)` (after trimming) suppress delivery, anything else is sent on the
originating channel. Returns the `channel.send` payload, if any. -/
def onCompleteAction (text : String) : Option String :=
  if trimStr text == "NO_REPLY" || trimStr text == "(done)" then none
  else some text

end Gateway

/-! ## Concrete fixtures used by the claim theorems and witnesses -/

namespace Routing

/-- A binding on the `telegram` channel with no account / peer / guild / team
constraint (a channel-default binding), used to exercise the priority tie
rules. -/
def fixtureBinding (bid agent : String) (prio : Option Int) : Binding :=
  { id := bid, agentId := agent, mtch := { channel := "telegram" }, priority := prio }

/-- A route input carrying only the channel. -/
def fixtureInput : RouteInput := { channel := "telegram" }

end Routing

namespace Announce

/-- Concrete announce parameters for run `n`. -/
def fixtureParams (n : String) : AnnounceParams :=
  { childSessionKey := "subagent:" ++ n
    childRunId := n
    requesterSessionKey := "web:1"
    requesterChannel := "websocket"
    task := "task " ++ n
    startedAt := some 0
    endedAt := some 1500
    outcome := some { status := "ok" }
    cleanup := .keep }

end Announce

namespace Runner

/-- A model that always answers with the fixed text `c`, with no tool calls,
no tools, and no steer traffic. -/
def pureTextEnv (c : String) : Env :=
  { chat := fun _ => { content := c, toolCalls := [] }
    lookupTool := fun _ => none
    injectArrivals := fun _ => [] }

/-- An adversarial model that answers every call with a `bash` tool call and
no text, against a registry where every lookup succeeds: the tool-call loop
never ends on its own. -/
def foreverToolEnv : Env :=
  { chat := fun _ => { content := "", toolCalls := [{ id := "1", name := "bash", args := "" }] }
    lookupTool := fun _ => some { output := "out" }
    injectArrivals := fun _ => [] }

/-- The transcript entry a side-channel tool appends during its execution. -/
def sideMsg : Msg := { role := .assistant, content := "SIDE" }

/-- Scenario for the mid-run transcript sync question: the first model call
returns one `sidetool` call; the tool appends `sideMsg` to the transcript
while executing; once a tool result is in the conversation the model
answers with plain text. -/
def sideAppendEnv : Env :=
  { chat := fun ms =>
      if ms.any (fun m => m.role == .tool) then { content := "done2", toolCalls := [] }
      else { content := "", toolCalls := [{ id := "1", name := "sidetool", args := "" }] }
    lookupTool := fun n =>
      if n == "sidetool" then some { output := "out", sideAppends := [sideMsg] } else none
    injectArrivals := fun _ => [] }

/-- Scenario for the nesting check: a subagent whose model emits a
`subagent_spawn` tool call; lookup goes through the embedded registry
(`getToolByName`, no Composio tools), and the spawn tool accepts. -/
def spawnAttemptEnv : Env :=
  { chat := fun ms =>
      if ms.any (fun m => m.role == .tool) then { content := "ok", toolCalls := [] }
      else { content := "", toolCalls := [{ id := "1", name := "subagent_spawn", args := "" }] }
    lookupTool := fun n =>
      (Tools.getToolByName [] n).map (fun _ => { output := "spawn-accepted" })
    injectArrivals := fun _ => [] }

/-- Scenario for steer injection: the model always answers with plain text
(`r<n>` where `n` is the conversation length), and the message `X` is
injected while the first model call is awaited. -/
def injectDuringRunEnv : Env :=
  { chat := fun ms => { content := "r" ++ toString ms.length, toolCalls := [] }
    lookupTool := fun _ => none
    injectArrivals := fun k => if k == 0 then ["X"] else [] }

/-- An empty initial runner state (first run of a fresh session). -/
def freshInit : RunInit := { messages := [], transcript := [], injected := [] }

end Runner

/-- The conversation the first chat call of a loop pass sees: the in-memory
messages after draining one pending injected message. -/
def Runner.firstConversation (s : Runner.RunState) : List Runner.Msg :=
  match s.injected with
  | [] => s.messages
  | inj :: _ => s.messages ++ [Runner.interruptMsg inj]

/-- A concrete runner state with one injected message pending. -/
def c9FixtureState : Runner.RunState :=
  { messages := [], transcript := [], injected := ["a"], iterations := 0
    finalResponse := "", emptyRetries := 0, chatCount := 0, chatLog := [] }

end Miniclaw

/-! # Theorems -/

/-! ## Runner loop accounting -/

namespace Miniclaw.Runner

@[simp]
theorem pushAndPersist_iterations (s : RunState) (m : Msg) :
    (pushAndPersist s m).iterations = s.iterations := rfl

@[simp]
theorem pushAndPersist_chatCount (s : RunState) (m : Msg) :
    (pushAndPersist s m).chatCount = s.chatCount := rfl

@[simp]
theorem pushAndPersist_chatLog (s : RunState) (m : Msg) :
    (pushAndPersist s m).chatLog = s.chatLog := rfl

@[simp]
theorem pushAndPersist_finalResponse (s : RunState) (m : Msg) :
    (pushAndPersist s m).finalResponse = s.finalResponse := rfl

@[simp]
theorem pushAndPersist_injected (s : RunState) (m : Msg) :
    (pushAndPersist s m).injected = s.injected := rfl

@[simp]
theorem pushAndPersist_emptyRetries (s : RunState) (m : Msg) :
    (pushAndPersist s m).emptyRetries = s.emptyRetries := rfl

theorem drainInjectedMain_frame (s : RunState) :
    (drainInjectedMain s).iterations = s.iterations
    ∧ (drainInjectedMain s).chatCount = s.chatCount
    ∧ (drainInjectedMain s).chatLog = s.chatLog
    ∧ (drainInjectedMain s).finalResponse = s.finalResponse
    ∧ (drainInjectedMain s).emptyRetries = s.emptyRetries
    ∧ (drainInjectedMain s).transcript = s.transcript := by
  unfold drainInjectedMain
  cases s.injected <;> simp

@[simp]
theorem drainInjectedMain_iterations (s : RunState) :
    (drainInjectedMain s).iterations = s.iterations := (drainInjectedMain_frame s).1

@[simp]
theorem drainInjectedMain_chatCount (s : RunState) :
    (drainInjectedMain s).chatCount = s.chatCount := (drainInjectedMain_frame s).2.1

@[simp]
theorem drainInjectedMain_chatLog (s : RunState) :
    (drainInjectedMain s).chatLog = s.chatLog := (drainInjectedMain_frame s).2.2.1

@[simp]
theorem drainInjectedMain_finalResponse (s : RunState) :
    (drainInjectedMain s).finalResponse = s.finalResponse :=
  (drainInjectedMain_frame s).2.2.2.1

@[simp]
theorem drainInjectedMain_emptyRetries (s : RunState) :
    (drainInjectedMain s).emptyRetries = s.emptyRetries :=
  (drainInjectedMain_frame s).2.2.2.2.1

@[simp]
theorem drainInjectedMain_transcript (s : RunState) :
    (drainInjectedMain s).transcript = s.transcript :=
  (drainInjectedMain_frame s).2.2.2.2.2

theorem execToolCall_frame (env : Env) (s : RunState) (tc : ToolCallSpec) :
    (execToolCall env s tc).iterations = s.iterations
    ∧ (execToolCall env s tc).chatCount = s.chatCount
    ∧ (execToolCall env s tc).chatLog = s.chatLog
    ∧ (execToolCall env s tc).finalResponse = s.finalResponse
    ∧ (execToolCall env s tc).injected = s.injected
    ∧ (execToolCall env s tc).emptyRetries = s.emptyRetries := by
  unfold execToolCall
  cases env.lookupTool tc.name <;> simp

theorem execToolCalls_frame (env : Env) (tcs : List ToolCallSpec) (s : RunState) :
    (execToolCalls env s tcs).iterations = s.iterations
    ∧ (execToolCalls env s tcs).chatCount = s.chatCount
    ∧ (execToolCalls env s tcs).chatLog = s.chatLog
    ∧ (execToolCalls env s tcs).finalResponse = s.finalResponse
    ∧ (execToolCalls env s tcs).injected = s.injected
    ∧ (execToolCalls env s tcs).emptyRetries = s.emptyRetries := by
  induction tcs generalizing s with
  | nil => exact ⟨rfl, rfl, rfl, rfl, rfl, rfl⟩
  | cons tc rest ih =>
    have h := execToolCall_frame env s tc
    have h' := ih (execToolCall env s tc)
    unfold execToolCalls at h' ⊢
    simp only [List.foldl_cons]
    exact ⟨h'.1.trans h.1, h'.2.1.trans h.2.1, h'.2.2.1.trans h.2.2.1,
      h'.2.2.2.1.trans h.2.2.2.1, h'.2.2.2.2.1.trans h.2.2.2.2.1,
      h'.2.2.2.2.2.trans h.2.2.2.2.2⟩

@[simp]
theorem execToolCalls_iterations (env : Env) (tcs : List ToolCallSpec) (s : RunState) :
    (execToolCalls env s tcs).iterations = s.iterations := (execToolCalls_frame env tcs s).1

@[simp]
theorem execToolCalls_chatCount (env : Env) (tcs : List ToolCallSpec) (s : RunState) :
    (execToolCalls env s tcs).chatCount = s.chatCount := (execToolCalls_frame env tcs s).2.1

@[simp]
theorem execToolCalls_chatLog (env : Env) (tcs : List ToolCallSpec) (s : RunState) :
    (execToolCalls env s tcs).chatLog = s.chatLog := (execToolCalls_frame env tcs s).2.2.1

@[simp]
theorem execToolCalls_finalResponse (env : Env) (tcs : List ToolCallSpec) (s : RunState) :
    (execToolCalls env s tcs).finalResponse = s.finalResponse :=
  (execToolCalls_frame env tcs s).2.2.2.1

@[simp]
theorem execToolCalls_injected (env : Env) (tcs : List ToolCallSpec) (s : RunState) :
    (execToolCalls env s tcs).injected = s.injected :=
  (execToolCalls_frame env tcs s).2.2.2.2.1

@[simp]
theorem execToolCalls_emptyRetries (env : Env) (tcs : List ToolCallSpec) (s : RunState) :
    (execToolCalls env s tcs).emptyRetries = s.emptyRetries :=
  (execToolCalls_frame env tcs s).2.2.2.2.2

/-- Every pass of the main loop body performs exactly one LLM call and
increments `iterations` exactly once, on every branch. -/
theorem mainStep_counts (env : Env) (s : RunState) :
    (mainStep env s).1.iterations = s.iterations + 1
    ∧ (mainStep env s).1.chatCount = s.chatCount + 1 := by
  simp only [mainStep, callLLM]
  repeat' split
  all_goals simp

/-- Every executed pass of the post-loop drain phase performs exactly one
LLM call and increments `iterations` exactly once. -/
theorem drainStep_counts (env : Env) (s : RunState) (inj : String) (rest : List String)
    (hinj : s.injected = inj :: rest) :
    (drainStep env s).iterations = s.iterations + 1
    ∧ (drainStep env s).chatCount = s.chatCount + 1 := by
  simp only [drainStep, drainInjectedPost, callLLM, hinj]
  repeat' split
  all_goals simp

/-- Accounting for the main loop: `iterations` grows by at most the fuel,
and the number of LLM calls made equals the number of iterations consumed. -/
theorem mainLoop_counts (env : Env) (fuel : Nat) :
    ∀ s : RunState,
      (mainLoop env fuel s).iterations ≤ s.iterations + fuel
      ∧ (mainLoop env fuel s).chatCount + s.iterations
          = s.chatCount + (mainLoop env fuel s).iterations := by
  induction fuel with
  | zero => intro s; exact ⟨Nat.le_refl _, rfl⟩
  | succ fuel ih =>
    intro s
    have hstep := mainStep_counts env s
    rw [mainLoop]
    rcases hms : mainStep env s with ⟨s', cont⟩
    rw [hms] at hstep
    cases cont with
    | true =>
      have h := ih s'
      simp only at hstep h ⊢
      omega
    | false =>
      simp only at hstep ⊢
      omega

/-- Accounting for the post-loop drain phase. -/
theorem drainLoop_counts (env : Env) (fuel : Nat) :
    ∀ s : RunState,
      (drainLoop env fuel s).iterations ≤ s.iterations + fuel
      ∧ (drainLoop env fuel s).chatCount + s.iterations
          = s.chatCount + (drainLoop env fuel s).iterations := by
  induction fuel with
  | zero => intro s; exact ⟨Nat.le_refl _, rfl⟩
  | succ fuel ih =>
    intro s
    rw [drainLoop]
    split
    · exact ⟨Nat.le_add_right _ _, rfl⟩
    · rcases hinj : s.injected with _ | ⟨inj, rest⟩
      · simp [hinj] at *
      · have hstep := drainStep_counts env s inj rest hinj
        have h := ih (drainStep env s)
        omega

/-- `setupState` starts the loop with zero iterations and no LLM calls. -/
theorem setupState_counts (source : Source) (um sys : String) (init : RunInit) :
    (setupState source um sys init).iterations = 0
    ∧ (setupState source um sys init).chatCount = 0
    ∧ (setupState source um sys init).chatLog = []
    ∧ (setupState source um sys init).finalResponse = ""
    ∧ (setupState source um sys init).injected = init.injected := by
  simp only [setupState, syncTranscript]
  repeat' split
  all_goals simp

/-- If the model never returns text, no pass of the main loop changes the
candidate final response. -/
theorem mainStep_finalResponse_empty (env : Env)
    (hc : ∀ ms, (env.chat ms).content = "") (s : RunState) :
    (mainStep env s).1.finalResponse = s.finalResponse := by
  simp [mainStep, callLLM, hc]
  repeat' split
  all_goals simp_all

theorem drainStep_finalResponse_empty (env : Env)
    (hc : ∀ ms, (env.chat ms).content = "") (s : RunState) :
    (drainStep env s).finalResponse = s.finalResponse := by
  simp [drainStep, drainInjectedPost, callLLM, hc]
  repeat' split
  all_goals simp_all

theorem mainLoop_finalResponse_empty (env : Env)
    (hc : ∀ ms, (env.chat ms).content = "") (fuel : Nat) :
    ∀ s : RunState, (mainLoop env fuel s).finalResponse = s.finalResponse := by
  induction fuel with
  | zero => intro s; rfl
  | succ fuel ih =>
    intro s
    have hstep := mainStep_finalResponse_empty env hc s
    rw [mainLoop]
    rcases hms : mainStep env s with ⟨s', cont⟩
    rw [hms] at hstep
    cases cont with
    | true => exact (ih s').trans hstep
    | false => exact hstep

theorem drainLoop_finalResponse_empty (env : Env)
    (hc : ∀ ms, (env.chat ms).content = "") (fuel : Nat) :
    ∀ s : RunState, (drainLoop env fuel s).finalResponse = s.finalResponse := by
  induction fuel with
  | zero => intro s; rfl
  | succ fuel ih =>
    intro s
    rw [drainLoop]
    split
    · rfl
    · exact (ih (drainStep env s)).trans (drainStep_finalResponse_empty env hc s)

end Miniclaw.Runner

namespace Miniclaw

open Runner in
/-- C3: for every environment (model behaviour, tool behaviour, steer
traffic) and every input, `run` makes at most 10 LLM calls in total across
the main loop and the post-loop drain phase, and if the model never
produces text the returned response is the `(done)` sentinel. -/
theorem C3_loop_bound_ten_llm_calls_and_done_sentinel (env : Runner.Env)
    (source : Runner.Source) (um sys : String) (init : Runner.RunInit) :
    (Runner.run env source um sys init).chatCount ≤ 10
    ∧ ((∀ ms, (env.chat ms).content = "") →
        Runner.runResult (Runner.run env source um sys init) = "(done)") := by
  have hsetup := Runner.setupState_counts source um sys init
  unfold Runner.run
  set s0 := Runner.setupState source um sys init with hs0
  set s1 := Runner.mainLoop env (Runner.maxIterations - s0.iterations) s0 with hs1
  set s2 := Runner.drainLoop env (Runner.maxIterations - s1.iterations) s1 with hs2
  have hmain := Runner.mainLoop_counts env (Runner.maxIterations - s0.iterations) s0
  have hdrain := Runner.drainLoop_counts env (Runner.maxIterations - s1.iterations) s1
  rw [← hs1] at hmain
  rw [← hs2] at hdrain
  have hmax : Runner.maxIterations = 10 := rfl
  constructor
  · omega
  · intro hc
    have h1 := Runner.mainLoop_finalResponse_empty env hc (Runner.maxIterations - s0.iterations) s0
    have h2 := Runner.drainLoop_finalResponse_empty env hc (Runner.maxIterations - s1.iterations) s1
    rw [← hs1] at h1
    rw [← hs2] at h2
    have hfr : s2.finalResponse = "" := by
      rw [h2, h1, hsetup.2.2.2.1]
    simp [Runner.runResult, hfr, trimStr]

/-- C1 (evaluation at the failing input): running the complete subagent flow
with `cleanup=delete` deletes the registry record but leaves the child
session `subagent:run-1` in the session store — no code path deletes the
child session, contradicting the claim (and the tool's own description of
the `cleanup` parameter). The `cleanup=keep` half of the claim does hold:
the record carries `archiveAtMs = registrationTime + 60 minutes` (the
default) and the sweeper drops it exactly once `archiveAtMs ≤ now`, with
the child session remaining. -/
theorem C1_delete_leaves_child_session :
    (Sessions.findBySessionKey
        (Subagent.subagentFlow [] [] "run-1" "sid-1" "web:1" "do it" none
          .delete 1000 1001 5000 5001).1 "subagent:run-1").isSome = true
    ∧ Subagent.regGet
        (Subagent.subagentFlow [] [] "run-1" "sid-1" "web:1" "do it" none
          .delete 1000 1001 5000 5001).2 "run-1" = none
    ∧ (Subagent.regGet
        (Subagent.subagentFlow [] [] "run-1" "sid-1" "web:1" "do it" none
          .keep 1000 1001 5000 5001).2 "run-1").map (·.archiveAtMs)
        = some (some (1000 + 60 * 60000))
    ∧ (Sessions.findBySessionKey
        (Subagent.subagentFlow [] [] "run-1" "sid-1" "web:1" "do it" none
          .keep 1000 1001 5000 5001).1 "subagent:run-1").isSome = true
    ∧ Subagent.sweep
        (Subagent.subagentFlow [] [] "run-1" "sid-1" "web:1" "do it" none
          .keep 1000 1001 5000 5001).2 (1000 + 60 * 60000) = []
    ∧ (Subagent.sweep
        (Subagent.subagentFlow [] [] "run-1" "sid-1" "web:1" "do it" none
          .keep 1000 1001 5000 5001).2 (1000 + 60 * 60000 - 1)).length = 1 := by
  decide

/-- C2 (counterexample): `createSession` inserts unconditionally, so the
second fire of the same cron job — each fire calls
`createSession('cron:<jobId>', …)` — produces a second session with the
same `sessionKey`, violating the uniqueness invariant the claim asserts is
preserved. -/
theorem C2_counterexample_cron_double_fire :
    Sessions.keyUnique
      (Sessions.createSession [] "cron:job1" "default" (some "Cron: t") (some "cron")
        "sid-a" 0).1
    ∧ ¬ Sessions.keyUnique
      (Sessions.createSession
        (Sessions.createSession [] "cron:job1" "default" (some "Cron: t") (some "cron")
          "sid-a" 0).1
        "cron:job1" "default" (some "Cron: t") (some "cron") "sid-b" 60000).1 := by
  decide

/-- `createSession` preserves key-uniqueness when the requested key is not
already bound and the generated `sessionId` is fresh. -/
theorem createSession_keyUnique (store : Sessions.SessionStore)
    (k agentId : String) (title chan : Option String) (sid : String) (now : Nat)
    (h : Sessions.keyUnique store)
    (hfresh : ∀ s ∈ store, s.sessionId ≠ sid)
    (hnone : Sessions.findBySessionKey store k = none) :
    Sessions.keyUnique (Sessions.createSession store k agentId title chan sid now).1 := by
  have hany : store.any (fun s => s.sessionId == sid) = false := by
    rw [List.any_eq_false]
    intro s hs
    simpa using hfresh s hs
  have hkeys : ∀ s ∈ store, s.sessionKey ≠ k := by
    intro s hs
    have := List.find?_eq_none.mp hnone s hs
    simpa using this
  simp only [Sessions.createSession, Sessions.setEntry, hany]
  simp only [Bool.false_eq_true, if_false]
  unfold Sessions.keyUnique
  rw [List.pairwise_append]
  refine ⟨h, List.pairwise_singleton _ _, ?_⟩
  intro a ha b hb
  simp only [List.mem_singleton] at hb
  subst hb
  exact hkeys a ha

/-- C2 (amended): `getOrCreate` preserves the at-most-one-session-per-key
invariant (assuming the generated UUID is fresh), and so does
`createSession` whenever the key is not yet bound — which holds for
subagent spawns, whose keys embed a fresh UUID, but not for a repeated
cron fire, as the counterexample shows. -/
theorem C2_amended_getOrCreate_preserves_uniqueness (store : Sessions.SessionStore)
    (k agentId : String) (title chan : Option String) (sid : String) (now : Nat)
    (h : Sessions.keyUnique store)
    (hfresh : ∀ s ∈ store, s.sessionId ≠ sid) :
    Sessions.keyUnique (Sessions.getOrCreate store k agentId chan sid now).1
    ∧ (Sessions.findBySessionKey store k = none →
        Sessions.keyUnique (Sessions.createSession store k agentId title chan sid now).1) := by
  constructor
  · unfold Sessions.getOrCreate
    rcases hfind : Sessions.findBySessionKey store k with _ | e
    · exact createSession_keyUnique store k agentId none chan sid now h hfresh hfind
    · exact h
  · intro hnone
    exact createSession_keyUnique store k agentId title chan sid now h hfresh hnone

/-- Witness for C2's amended theorem at a concrete store. -/
theorem C2_amended_witness :
    Sessions.keyUnique
      (Sessions.getOrCreate
        (Sessions.createSession [] "web:1" "default" none none "sid-a" 0).1
        "web:2" "default" none "sid-b" 5).1 :=
  (C2_amended_getOrCreate_preserves_uniqueness
    (Sessions.createSession [] "web:1" "default" none none "sid-a" 0).1
    "web:2" "default" none none "sid-b" 5
    (by decide) (by decide)).1

/-- C4 (counterexample): a tool appends `sideMsg` to the transcript while
executing during iteration 1; a second model call follows (iteration 2),
yet no conversation ever sent to the model contains `sideMsg` — the runner
syncs the transcript only once, before the loop, not at the start of every
iteration as the claim states. -/
theorem C4_counterexample_no_midloop_sync :
    (Runner.run Runner.sideAppendEnv .user "task" "SYS" Runner.freshInit).chatCount = 2
    ∧ Runner.sideMsg
        ∈ (Runner.run Runner.sideAppendEnv .user "task" "SYS" Runner.freshInit).transcript
    ∧ ∀ conv ∈ (Runner.run Runner.sideAppendEnv .user "task" "SYS" Runner.freshInit).chatLog,
        Runner.sideMsg ∉ conv := by
  decide

/-- C5 (evaluation at the failing input): the tool schemas offered to a
subagent runner do exclude `subagent_spawn`, but `getToolByName` looks the
name up without the subagent filter, so when a subagent's model emits a
`subagent_spawn` call anyway the loop finds the tool and executes it — the
transcript records the tool's output, not
`Error: Unknown tool subagent_spawn`. -/
theorem C5_spawn_executed_despite_denial :
    Tools.getToolSchemaNames [] true
      = ["bash", "read", "write", "cron", "web_fetch", "telegram_send", "session_send", "skill"]
    ∧ Tools.getToolByName [] "subagent_spawn" = some { name := "subagent_spawn" }
    ∧ ({ role := .tool, content := "spawn-accepted", toolCallId := some "1" } : Runner.Msg)
        ∈ (Runner.run Runner.spawnAttemptEnv .user "spawn it" "SYS" Runner.freshInit).transcript
    ∧ ∀ m ∈ (Runner.run Runner.spawnAttemptEnv .user "spawn it" "SYS" Runner.freshInit).transcript,
        m.content ≠ "Error: Unknown tool subagent_spawn" := by
  decide

/-- C9: an injected message drained inside the main loop is added to the
in-memory conversation as the `[INTERRUPT]`-prefixed user entry but is not
persisted — the transcript and every other state component are untouched —
while the post-loop drain persists the same entry to the transcript as
well. Concretely (third conjunct): with a message `X` injected during the
first model call, the model sees the interrupt entry on the next call, yet
the final transcript is exactly system / user / the two assistant replies,
with no interrupt entry. -/
theorem C9_inloop_injection_not_persisted (s : Runner.RunState) (inj : String)
    (rest : List String) (h : s.injected = inj :: rest) :
    Runner.drainInjectedMain s
      = { s with injected := rest, messages := s.messages ++ [Runner.interruptMsg inj] }
    ∧ Runner.drainInjectedPost s
      = { s with
          injected := rest
          iterations := s.iterations + 1
          messages := s.messages ++ [Runner.interruptMsg inj]
          transcript := s.transcript ++ [Runner.interruptMsg inj] }
    ∧ (Runner.interruptMsg "X"
          ∉ (Runner.run Runner.injectDuringRunEnv .user "hi" "SYS" Runner.freshInit).transcript
        ∧ (∃ conv ∈ (Runner.run Runner.injectDuringRunEnv .user "hi" "SYS"
              Runner.freshInit).chatLog, Runner.interruptMsg "X" ∈ conv)
        ∧ (Runner.run Runner.injectDuringRunEnv .user "hi" "SYS" Runner.freshInit).transcript
            = [ { role := .system, content := "SYS" }, { role := .user, content := "hi" }
              , { role := .assistant, content := "r2" }, { role := .assistant, content := "r4" } ]) := by
  refine ⟨?_, ?_, by decide⟩
  · simp [Runner.drainInjectedMain, h]
  · simp [Runner.drainInjectedPost, Runner.pushAndPersist, h]

/-- Witness for C9 at a concrete runner state. -/
theorem C9_witness :
    Runner.drainInjectedMain c9FixtureState
      = { c9FixtureState with
          injected := []
          messages := [Runner.interruptMsg "a"] } :=
  (C9_inloop_injection_not_persisted c9FixtureState "a" [] rfl).1

/-- A run whose injected queue is empty never enters the drain phase. -/
theorem drainLoop_nil (env : Runner.Env) (fuel : Nat) (s : Runner.RunState)
    (h : s.injected = []) : Runner.drainLoop env fuel s = s := by
  cases fuel with
  | zero => rfl
  | succ fuel =>
    rw [Runner.drainLoop]
    simp [h]

/-- A main-loop invocation whose first pass breaks returns that pass's
state. -/
theorem mainLoop_break (env : Runner.Env) (fuel : Nat) (s : Runner.RunState)
    (h : (Runner.mainStep env s).2 = false) :
    Runner.mainLoop env (fuel + 1) s = (Runner.mainStep env s).1 := by
  rw [Runner.mainLoop]
  rcases hms : Runner.mainStep env s with ⟨s', b⟩
  rw [hms] at h
  cases b
  · rfl
  · simp at h

/-- Every pass of the main loop records exactly one conversation in the chat
log: the in-memory messages after draining one injected message. -/
theorem mainStep_chatLog (env : Runner.Env) (s : Runner.RunState) :
    (Runner.mainStep env s).1.chatLog = s.chatLog ++ [Runner.firstConversation s] := by
  simp only [Runner.mainStep, Runner.callLLM, Runner.drainInjectedMain,
    Runner.firstConversation]
  repeat' split
  all_goals simp_all

theorem mainLoop_chatLog_isPrefix (env : Runner.Env) (fuel : Nat) :
    ∀ s : Runner.RunState, s.chatLog <+: (Runner.mainLoop env fuel s).chatLog := by
  induction fuel with
  | zero => intro s; exact List.prefix_refl _
  | succ fuel ih =>
    intro s
    have hstep := mainStep_chatLog env s
    rw [Runner.mainLoop]
    rcases hms : Runner.mainStep env s with ⟨s', b⟩
    rw [hms] at hstep
    have hpre : s.chatLog <+: s'.chatLog := by
      rw [hstep]; exact List.prefix_append _ _
    cases b
    · exact hpre
    · exact hpre.trans (ih s')

theorem drainStep_chatLog_isPrefix (env : Runner.Env) (s : Runner.RunState) :
    s.chatLog <+: (Runner.drainStep env s).chatLog := by
  simp only [Runner.drainStep, Runner.drainInjectedPost, Runner.callLLM,
    Runner.pushAndPersist]
  repeat' split
  all_goals simp

theorem drainLoop_chatLog_isPrefix (env : Runner.Env) (fuel : Nat) :
    ∀ s : Runner.RunState, s.chatLog <+: (Runner.drainLoop env fuel s).chatLog := by
  induction fuel with
  | zero => intro s; exact List.prefix_refl _
  | succ fuel ih =>
    intro s
    rw [Runner.drainLoop]
    split
    · exact List.prefix_refl _
    · exact (drainStep_chatLog_isPrefix env s).trans (ih (Runner.drainStep env s))

/-- The sync block merges every transcript entry into the in-memory view
(given the in-memory view was a prefix of the transcript, the invariant
between runs). -/
theorem syncTranscript_mem (s : Runner.RunState) (h : s.messages <+: s.transcript) :
    ∀ e ∈ s.transcript, e ∈ (Runner.syncTranscript s).messages := by
  intro e he
  obtain ⟨t, ht⟩ := h
  unfold Runner.syncTranscript
  split <;> rename_i hlen
  · have hdrop : s.messages ++ s.transcript.drop s.messages.length = s.transcript := by
      conv_lhs => rw [← ht]
      rw [List.drop_left]
      exact ht
    show e ∈ s.messages ++ s.transcript.drop s.messages.length
    rw [hdrop]
    exact he
  · have hle : s.transcript.length ≤ s.messages.length := Nat.le_of_not_lt hlen
    have ht0 : t = [] := by
      rw [← ht, List.length_append] at hle
      have h0 : t.length = 0 := by omega
      exact List.length_eq_zero.mp h0
    subst ht0
    rw [List.append_nil] at ht
    show e ∈ s.messages
    rw [ht]
    exact he

/-- After the setup phase, the in-memory conversation contains every entry
the transcript held when the run started. -/
theorem setupState_transcript_mem (source : Runner.Source) (um sys : String)
    (init : Runner.RunInit) (h : init.messages <+: init.transcript) :
    ∀ e ∈ init.transcript, e ∈ (Runner.setupState source um sys init).messages := by
  intro e he
  have hm := syncTranscript_mem
    { messages := init.messages, transcript := init.transcript
      injected := init.injected, iterations := 0, finalResponse := ""
      emptyRetries := 0, chatCount := 0, chatLog := [] } h e he
  simp only [Runner.setupState, Runner.pushAndPersist]
  split
  · exact List.mem_append_left _ (List.mem_append_left _ hm)
  · exact List.mem_append_left _ hm

open Runner in
/-- C4 (amended): the runner merges transcript entries into its in-memory
conversation once per `run` invocation, before the loop: every entry
present in the transcript when the run starts is part of the conversation
sent to the first model call. (It does not re-sync at later iterations, as
the counterexample shows.) -/
theorem C4_amended_sync_once_before_loop (env : Runner.Env) (source : Runner.Source)
    (um sys : String) (init : Runner.RunInit)
    (h : init.messages <+: init.transcript) :
    ∃ conv, (Runner.run env source um sys init).chatLog.head? = some conv
      ∧ ∀ e ∈ init.transcript, e ∈ conv := by
  have hsetup := Runner.setupState_counts source um sys init
  refine ⟨Runner.firstConversation (Runner.setupState source um sys init), ?_, ?_⟩
  · simp only [Runner.run]
    set s0 := Runner.setupState source um sys init with hs0
    have hfuel : Runner.maxIterations - s0.iterations = 9 + 1 := by
      rw [hsetup.1]
      rfl
    rw [hfuel, Runner.mainLoop]
    have hstep := mainStep_chatLog env s0
    rcases hms : Runner.mainStep env s0 with ⟨s', b⟩
    rw [hms] at hstep
    have hstep' : s'.chatLog = [Runner.firstConversation s0] := by
      rw [hstep, hsetup.2.2.1, List.nil_append]
    have hpost : ∀ s₁ : Runner.RunState, s'.chatLog <+: s₁.chatLog →
        s₁.chatLog.head? = some (Runner.firstConversation s0) := by
      intro s₁ hpre
      rw [hstep'] at hpre
      obtain ⟨r, hr⟩ := hpre
      rw [← hr]
      rfl
    cases b
    · exact hpost _ (drainLoop_chatLog_isPrefix env _ s')
    · exact hpost _ ((mainLoop_chatLog_isPrefix env 9 s').trans
        (drainLoop_chatLog_isPrefix env _ _))
  · intro e he
    have hmem := setupState_transcript_mem source um sys init h e he
    unfold Runner.firstConversation
    split
    · exact hmem
    · exact List.mem_append_left _ hmem

/-- Witness for C4's amended theorem: a transcript entry appended between
runs is part of the first model call of the next run. -/
theorem C4_amended_witness :
    ∃ conv,
      (Runner.run (Runner.pureTextEnv "pong") .user "ping" "SYS"
        { messages := [{ role := .system, content := "SYS" }]
          transcript := [{ role := .system, content := "SYS" },
            { role := .assistant, content := "side-write" }]
          injected := [] }).chatLog.head? = some conv
      ∧ ∀ e ∈ [({ role := .system, content := "SYS" } : Runner.Msg),
          { role := .assistant, content := "side-write" }], e ∈ conv :=
  C4_amended_sync_once_before_loop (Runner.pureTextEnv "pong") .user "ping" "SYS"
    { messages := [{ role := .system, content := "SYS" }]
      transcript := [{ role := .system, content := "SYS" },
        { role := .assistant, content := "side-write" }]
      injected := [] }
    ⟨[{ role := .assistant, content := "side-write" }], rfl⟩

/-- C6: two subagent completions for the same requester enqueued less than
2000 ms apart (the second arriving before the debounce timer fires) produce
exactly one `triggerAgent` call, whose message is the collected form —
headed `[2 background tasks completed]`, with the per-task blocks in
completion order; two completions more than 2000 ms apart produce two
single-trigger calls. -/
theorem C6_announce_debounce (t1 t2 : Nat) (p1 p2 : Announce.AnnounceParams)
    (f1 f2 : String) :
    (t2 < t1 + 2000 →
      (Announce.finishTimeline (Announce.runTimeline
          [(t1, p1, f1), (t2, p2, f2)] Announce.initAnnState)).calls
        = [Announce.buildCollectedTriggerMessage
            [{ params := p1, findings := f1, enqueuedAt := t1 },
             { params := p2, findings := f2, enqueuedAt := t2 }]]
      ∧ ∃ rest, Announce.buildCollectedTriggerMessage
            [{ params := p1, findings := f1, enqueuedAt := t1 },
             { params := p2, findings := f2, enqueuedAt := t2 }]
          = "[2 background tasks completed]" ++ rest)
    ∧ (t1 + 2000 < t2 →
      (Announce.finishTimeline (Announce.runTimeline
          [(t1, p1, f1), (t2, p2, f2)] Announce.initAnnState)).calls
        = [Announce.buildTriggerMessage p1 f1, Announce.buildTriggerMessage p2 f2]) := by
  constructor
  · intro hclose
    have hnd : ¬(t1 + Announce.DEBOUNCE_MS ≤ t2) := by
      simp only [Announce.DEBOUNCE_MS]
      omega
    constructor
    · simp only [Announce.runTimeline, List.foldl_cons, List.foldl_nil,
        Announce.enqueueAnnounce, Announce.fireIfDue, Announce.initAnnState,
        Announce.finishTimeline, if_neg hnd, Announce.drainQueue]
      simp
    · have hgen : ∀ tail : List String, ∃ rest,
          Announce.joinLines
              (("[" ++ toString (2 : Nat) ++ " background tasks completed]") :: tail)
            = "[2 background tasks completed]" ++ rest := by
        intro tail
        cases tail with
        | nil => exact ⟨"", by decide⟩
        | cons y ys =>
          refine ⟨"\n" ++ Announce.joinLines (y :: ys), ?_⟩
          rw [show ∀ x, Announce.joinLines (x :: y :: ys)
              = x ++ "\n" ++ Announce.joinLines (y :: ys) from fun _ => rfl]
          rw [show ("[" ++ toString (2 : Nat) ++ " background tasks completed]" : String)
            = "[2 background tasks completed]" from by decide]
          rw [String.append_assoc]
      unfold Announce.buildCollectedTriggerMessage
      norm_num [Announce.taskBlocks, Announce.taskBlock]
      exact hgen _
  · intro hfar
    have hd : t1 + Announce.DEBOUNCE_MS ≤ t2 := by
      simp only [Announce.DEBOUNCE_MS]
      omega
    simp only [Announce.runTimeline, List.foldl_cons, List.foldl_nil,
      Announce.enqueueAnnounce, Announce.fireIfDue, Announce.initAnnState,
      Announce.finishTimeline, if_pos hd, Announce.drainQueue]
    simp

/-- Witness for C6: concrete completions 100 ms apart collapse into one
collected trigger; 5000 ms apart they trigger twice. -/
theorem C6_witness :
    (Announce.finishTimeline (Announce.runTimeline
        [(0, Announce.fixtureParams "a", "a-done"), (100, Announce.fixtureParams "b", "b-done")]
        Announce.initAnnState)).calls
      = [Announce.buildCollectedTriggerMessage
          [{ params := Announce.fixtureParams "a", findings := "a-done", enqueuedAt := 0 },
           { params := Announce.fixtureParams "b", findings := "b-done", enqueuedAt := 100 }]]
    ∧ (Announce.finishTimeline (Announce.runTimeline
        [(0, Announce.fixtureParams "a", "a-done"), (5000, Announce.fixtureParams "b", "b-done")]
        Announce.initAnnState)).calls
      = [Announce.buildTriggerMessage (Announce.fixtureParams "a") "a-done",
         Announce.buildTriggerMessage (Announce.fixtureParams "b") "b-done"] :=
  ⟨((C6_announce_debounce 0 100 (Announce.fixtureParams "a") (Announce.fixtureParams "b")
      "a-done" "b-done").1 (by decide)).1,
   (C6_announce_debounce 0 5000 (Announce.fixtureParams "a") (Announce.fixtureParams "b")
      "a-done" "b-done").2 (by decide)⟩

open Runner in
/-- C8: when the final response of a run trims to exactly `NO_REPLY` or
`(done)`, the Gateway's completion callback does not send on the channel —
and suppression happens in exactly those two cases — while the model's text
response is still persisted unchanged as the final assistant transcript
entry. -/
theorem C8_sentinel_suppression (c um sys : String)
    (h : trimStr c = "NO_REPLY" ∨ trimStr c = "(done)") :
    Gateway.onCompleteAction
        (Runner.runResult (Runner.run (Runner.pureTextEnv c) .user um sys Runner.freshInit))
      = none
    ∧ (Runner.run (Runner.pureTextEnv c) .user um sys Runner.freshInit).transcript
      = [ { role := .system, content := sys }, { role := .user, content := um }
        , { role := .assistant, content := c } ]
    ∧ (∀ t, Gateway.onCompleteAction t = none
        ↔ (trimStr t = "NO_REPLY" ∨ trimStr t = "(done)")) := by
  have hc : c ≠ "" := by
    rintro rfl
    rcases h with h | h <;> exact absurd h (by decide)
  have hcb : (c == "") = false := beq_eq_false_iff_ne.mpr hc
  have hs0 : Runner.setupState .user um sys Runner.freshInit
      = ⟨[{ role := .system, content := sys }, { role := .user, content := um }],
         [{ role := .system, content := sys }, { role := .user, content := um }],
         [], 0, "", 0, 0, []⟩ := by
    simp [Runner.setupState, Runner.syncTranscript, Runner.pushAndPersist,
      Runner.frameSource, Runner.freshInit]
  have hms : Runner.mainStep (Runner.pureTextEnv c)
      ⟨[{ role := .system, content := sys }, { role := .user, content := um }],
       [{ role := .system, content := sys }, { role := .user, content := um }],
       [], 0, "", 0, 0, []⟩
      = (⟨[{ role := .system, content := sys }, { role := .user, content := um },
           { role := .assistant, content := c }],
          [{ role := .system, content := sys }, { role := .user, content := um },
           { role := .assistant, content := c }],
          [], 1, c, 0, 1,
          [[{ role := .system, content := sys }, { role := .user, content := um }]]⟩, false) := by
    simp [Runner.mainStep, Runner.callLLM, Runner.drainInjectedMain,
      Runner.pureTextEnv, hcb, Runner.pushAndPersist]
  have hrun : Runner.run (Runner.pureTextEnv c) .user um sys Runner.freshInit
      = ⟨[{ role := .system, content := sys }, { role := .user, content := um },
          { role := .assistant, content := c }],
         [{ role := .system, content := sys }, { role := .user, content := um },
          { role := .assistant, content := c }],
         [], 1, c, 0, 1,
         [[{ role := .system, content := sys }, { role := .user, content := um }]]⟩ := by
    simp only [Runner.run, hs0]
    have hfuel : Runner.maxIterations
        - (⟨[{ role := .system, content := sys }, { role := .user, content := um }],
            [{ role := .system, content := sys }, { role := .user, content := um }],
            [], 0, "", 0, 0, []⟩ : Runner.RunState).iterations = 9 + 1 := rfl
    rw [hfuel, mainLoop_break _ _ _ (by rw [hms]), hms]
    exact drainLoop_nil _ _ _ rfl
  have htrim : (trimStr c == "") = false := by
    rcases h with h | h <;> rw [h] <;> decide
  have hsupp : (trimStr c == "NO_REPLY" || trimStr c == "(done)") = true := by
    rcases h with h | h <;> rw [h] <;> decide
  refine ⟨?_, ?_, ?_⟩
  · rw [hrun]
    simp only [Runner.runResult, htrim, Bool.false_eq_true, if_false]
    simp only [Gateway.onCompleteAction, hsupp, if_true]
  · rw [hrun]
  · intro t
    simp only [Gateway.onCompleteAction]
    split <;> rename_i hcond
    · simp only [Bool.or_eq_true, beq_iff_eq] at hcond
      simp [hcond]
    · simp only [Bool.or_eq_true, beq_iff_eq] at hcond
      simp [hcond]

/-- Witness for C8 at the literal `NO_REPLY` response. -/
theorem C8_witness :
    Gateway.onCompleteAction
        (Runner.runResult
          (Runner.run (Runner.pureTextEnv "NO_REPLY") .user "ping" "SYS" Runner.freshInit))
      = none :=
  (C8_sentinel_suppression "NO_REPLY" "ping" "SYS" (Or.inl (by decide))).1

/-- Witness for C3: the adversarial model that answers every call with a
tool call and no text drives the runner to exactly the budget and the
`(done)` fallback. -/
theorem C3_witness :
    (Runner.run Runner.foreverToolEnv .user "go" "SYS" Runner.freshInit).chatCount ≤ 10
    ∧ Runner.runResult (Runner.run Runner.foreverToolEnv .user "go" "SYS" Runner.freshInit)
        = "(done)" :=
  ⟨(C3_loop_bound_ten_llm_calls_and_done_sentinel Runner.foreverToolEnv .user "go" "SYS"
      Runner.freshInit).1,
   (C3_loop_bound_ten_llm_calls_and_done_sentinel Runner.foreverToolEnv .user "go" "SYS"
      Runner.freshInit).2 (fun _ => rfl)⟩

end Miniclaw

/-! ## Routing: the stable sort and the tiered matching order -/

namespace Miniclaw.Routing

theorem mem_insertByPrio (x a : Binding) (l : List Binding) :
    a ∈ insertByPrio x l ↔ a = x ∨ a ∈ l := by
  induction l with
  | nil => simp [insertByPrio]
  | cons y ys ih =>
    simp only [insertByPrio]
    split
    · simp only [List.mem_cons, ih]
      tauto
    · simp [List.mem_cons]

theorem pairwise_insertByPrio (x : Binding) (l : List Binding)
    (h : l.Pairwise (fun a b => prioKey a ≤ prioKey b)) :
    (insertByPrio x l).Pairwise (fun a b => prioKey a ≤ prioKey b) := by
  induction l with
  | nil => simp [insertByPrio]
  | cons y ys ih =>
    rcases List.pairwise_cons.mp h with ⟨hy, hys⟩
    simp only [insertByPrio]
    split <;> rename_i hle
    · refine List.pairwise_cons.mpr ⟨?_, ih hys⟩
      intro b hb
      rcases (mem_insertByPrio x b ys).mp hb with hb | hb
      · subst hb; exact hle
      · exact hy b hb
    · refine List.pairwise_cons.mpr ⟨?_, h⟩
      intro b hb
      rcases List.mem_cons.mp hb with hb | hb
      · subst hb; omega
      · have := hy b hb; omega

theorem pairwise_foldl_insertByPrio (l : List Binding) :
    ∀ acc : List Binding, acc.Pairwise (fun a b => prioKey a ≤ prioKey b) →
      (l.foldl (fun a x => insertByPrio x a) acc).Pairwise
        (fun a b => prioKey a ≤ prioKey b) := by
  induction l with
  | nil => intro acc hacc; exact hacc
  | cons x xs ih =>
    intro acc hacc
    exact ih (insertByPrio x acc) (pairwise_insertByPrio x acc hacc)

theorem pairwise_sortByPrio (l : List Binding) :
    (sortByPrio l).Pairwise (fun a b => prioKey a ≤ prioKey b) :=
  pairwise_foldl_insertByPrio l [] (List.Pairwise.nil)

theorem find?_insertByPrio (q : Binding → Bool) (x : Binding) (l : List Binding)
    (h : l.Pairwise (fun a b => prioKey a ≤ prioKey b)) :
    (insertByPrio x l).find? q = findStep q (l.find? q) x := by
  induction l with
  | nil =>
    cases hqx : q x <;>
      simp [insertByPrio, findStep, minStep, List.find?_cons, hqx]
  | cons y ys ih =>
    rcases List.pairwise_cons.mp h with ⟨hy, hys⟩
    simp only [insertByPrio]
    split <;> rename_i hle
    · cases hqy : q y with
      | true =>
        simp only [List.find?_cons, hqy, findStep, minStep]
        have hnlt : ¬(prioKey x < prioKey y) := by omega
        cases hqx : q x <;> simp [hqx, hnlt]
      | false =>
        simp only [List.find?_cons, hqy, ih hys]
    · have hL : List.find? q (x :: y :: ys)
          = if q x then some x else List.find? q (y :: ys) := by
        cases hqx : q x <;> simp [List.find?_cons, hqx]
      rw [hL]
      cases hqx : q x with
      | true =>
        simp only [hqx, if_true, findStep]
        rcases hfind : List.find? q (y :: ys) with _ | b
        · rfl
        · have hb := List.mem_of_find?_eq_some hfind
          have hyb : prioKey y ≤ prioKey b := by
            rcases List.mem_cons.mp hb with hb | hb
            · subst hb; omega
            · exact hy b hb
          have hlt : prioKey x < prioKey b := by omega
          simp [minStep, hlt]
      | false =>
        simp [findStep, hqx]

theorem find?_foldl_insertByPrio (q : Binding → Bool) (l : List Binding) :
    ∀ acc : List Binding, acc.Pairwise (fun a b => prioKey a ≤ prioKey b) →
      (l.foldl (fun a x => insertByPrio x a) acc).find? q
        = l.foldl (findStep q) (acc.find? q) := by
  induction l with
  | nil => intro acc _; rfl
  | cons x xs ih =>
    intro acc hacc
    simp only [List.foldl_cons]
    rw [ih (insertByPrio x acc) (pairwise_insertByPrio x acc hacc),
      find?_insertByPrio q x acc hacc]

theorem foldl_minStep_filter (q : Binding → Bool) (l : List Binding) :
    ∀ init : Option Binding,
      (l.filter q).foldl minStep init = l.foldl (findStep q) init := by
  induction l with
  | nil => intro init; rfl
  | cons x xs ih =>
    intro init
    cases hqx : q x <;> simp [List.filter_cons, hqx, findStep, ih]

/-- `find` over the stable-sorted list returns the stable minimum-priority
element among those satisfying the predicate, in original insertion order. -/
theorem find?_sortByPrio (q : Binding → Bool) (l : List Binding) :
    (sortByPrio l).find? q = stableMinByPrio (l.filter q) := by
  unfold sortByPrio stableMinByPrio
  rw [find?_foldl_insertByPrio q l [] List.Pairwise.nil, foldl_minStep_filter]
  rfl

theorem find?_filter_eq (p c : Binding → Bool) (l : List Binding) :
    (l.filter c).find? p = l.find? (fun b => c b && p b) := by
  induction l with
  | nil => rfl
  | cons a l ih =>
    cases hca : c a <;> cases hpa : p a <;>
      simp [List.filter_cons, hca, hpa, List.find?_cons, ih]

/-- The per-tier lookup of `resolveRoute` equals the spec's stable minimum
over the same-channel candidates of the tier. -/
theorem channelFind (store : List Binding) (inp : RouteInput) (p : Binding → Bool) :
    ((listBindings store).filter (chanPred inp)).find? p
      = stableMinByPrio (store.filter (fun b => chanPred inp b && p b)) := by
  rw [listBindings, find?_filter_eq, find?_sortByPrio]

/-- C7: `resolveRoute` implements exactly the spec's strict tier order —
peer, then guild, then team, then account (unconstrained), then
channel-default, then the default agent — where within each tier the
lowest `(priority ?? 100)` among the same-channel candidates wins, ties
broken by insertion order. -/
theorem C7_resolveRoute_matches_spec_tiers (store : List Binding) (inp : RouteInput)
    (defaultAgentId : String) :
    resolveRoute store inp defaultAgentId = resolveRouteSpec store inp defaultAgentId := by
  simp only [resolveRoute, resolveRouteSpec, channelFind]

theorem filter_key_insertByPrio (k : Int) (x : Binding) (l : List Binding)
    (h : l.Pairwise (fun a b => prioKey a ≤ prioKey b)) :
    (insertByPrio x l).filter (fun b => prioKey b == k)
      = l.filter (fun b => prioKey b == k)
        ++ (if prioKey x == k then [x] else []) := by
  induction l with
  | nil =>
    cases hxk : prioKey x == k <;>
      simp [insertByPrio, List.filter_cons, hxk]
  | cons y ys ih =>
    rcases List.pairwise_cons.mp h with ⟨hy, hys⟩
    simp only [insertByPrio]
    split <;> rename_i hle
    · cases hyk : prioKey y == k <;>
        simp [List.filter_cons, hyk, ih hys]
    · cases hxk : prioKey x == k with
      | true =>
        have hk : prioKey x = k := by simpa using hxk
        have hnone : List.filter (fun b => prioKey b == k) (y :: ys) = [] := by
          rw [List.filter_eq_nil_iff]
          intro b hb
          have hyb : prioKey y ≤ prioKey b := by
            rcases List.mem_cons.mp hb with hb | hb
            · subst hb; omega
            · exact hy b hb
          simp only [beq_iff_eq]
          omega
        simp [List.filter_cons, hxk, hnone]
      | false =>
        simp [List.filter_cons, hxk]

theorem filter_key_foldl_insertByPrio (k : Int) (l : List Binding) :
    ∀ acc : List Binding, acc.Pairwise (fun a b => prioKey a ≤ prioKey b) →
      (l.foldl (fun a x => insertByPrio x a) acc).filter (fun b => prioKey b == k)
        = acc.filter (fun b => prioKey b == k)
          ++ l.filter (fun b => prioKey b == k) := by
  induction l with
  | nil => intro acc _; simp
  | cons x xs ih =>
    intro acc hacc
    simp only [List.foldl_cons]
    rw [ih (insertByPrio x acc) (pairwise_insertByPrio x acc hacc),
      filter_key_insertByPrio k x acc hacc]
    cases hxk : prioKey x == k <;>
      simp [List.filter_cons, hxk, List.append_assoc]

/-- Stability of the `listBindings` sort: for every priority key, the
bindings carrying that key come out in exactly their insertion order. -/
theorem sortByPrio_stable (k : Int) (l : List Binding) :
    (sortByPrio l).filter (fun b => prioKey b == k)
      = l.filter (fun b => prioKey b == k) := by
  unfold sortByPrio
  rw [filter_key_foldl_insertByPrio k l [] List.Pairwise.nil]
  rfl

theorem insertByPrio_perm (x : Binding) (l : List Binding) :
    (insertByPrio x l).Perm (x :: l) := by
  induction l with
  | nil => exact List.Perm.refl _
  | cons y ys ih =>
    simp only [insertByPrio]
    split
    · exact (List.Perm.cons y ih).trans (List.Perm.swap x y ys)
    · exact List.Perm.refl _

theorem foldl_insertByPrio_perm (l : List Binding) :
    ∀ acc : List Binding, (l.foldl (fun a x => insertByPrio x a) acc).Perm (acc ++ l) := by
  induction l with
  | nil => intro acc; simp
  | cons x xs ih =>
    intro acc
    simp only [List.foldl_cons]
    refine (ih (insertByPrio x acc)).trans ?_
    refine (List.Perm.append_right xs (insertByPrio_perm x acc)).trans ?_
    exact List.perm_middle.symm

theorem sortByPrio_perm (l : List Binding) : (sortByPrio l).Perm l := by
  unfold sortByPrio
  simpa using foldl_insertByPrio_perm l []

/-- C10: a binding with no `priority` field sorts as if its priority were
100 — `listBindings` is an ascending stable permutation by
`(priority ?? 100)` — so within the same routing tier an explicit
priority below 100 beats an unset one regardless of insertion order, and
an unset one beats an explicit priority above 100. -/
theorem C10_priority_default_100 (store : List Binding) (p q : Int)
    (aU aP aQ dflt : String) (hp : p < 100) (hq : 100 < q) :
    (listBindings store).Pairwise (fun a b => prioKey a ≤ prioKey b)
    ∧ (∀ k : Int, (listBindings store).filter (fun b => prioKey b == k)
        = store.filter (fun b => prioKey b == k))
    ∧ (listBindings store).Perm store
    ∧ resolveRoute [fixtureBinding "u" aU none, fixtureBinding "p" aP (some p)]
        fixtureInput dflt
      = { agentId := aP, matchedBy := .channel
          binding := some (fixtureBinding "p" aP (some p)) }
    ∧ resolveRoute [fixtureBinding "q" aQ (some q), fixtureBinding "u" aU none]
        fixtureInput dflt
      = { agentId := aU, matchedBy := .channel
          binding := some (fixtureBinding "u" aU none) } := by
  refine ⟨pairwise_sortByPrio store, fun k => sortByPrio_stable k store,
    sortByPrio_perm store, ?_, ?_⟩
  · have h100 : ¬((100 : Int) ≤ p) := by omega
    simp [resolveRoute, listBindings, sortByPrio, insertByPrio, prioKey,
      fixtureBinding, fixtureInput, chanPred, channelDefaultPred, truthyStr,
      unconstrained, List.find?_cons, List.filter_cons, h100]
  · have h100 : ¬(q ≤ (100 : Int)) := by omega
    simp [resolveRoute, listBindings, sortByPrio, insertByPrio, prioKey,
      fixtureBinding, fixtureInput, chanPred, channelDefaultPred, truthyStr,
      unconstrained, List.find?_cons, List.filter_cons, h100]

/-- Witness for C10: priority 50 beats an unset priority listed first, and
an unset priority beats priority 200 listed first. -/
theorem C10_witness :
    resolveRoute [fixtureBinding "u" "agent-unset" none, fixtureBinding "p" "agent-low" (some 50)]
        fixtureInput "dflt"
      = { agentId := "agent-low", matchedBy := .channel
          binding := some (fixtureBinding "p" "agent-low" (some 50)) }
    ∧ resolveRoute [fixtureBinding "q" "agent-high" (some 200), fixtureBinding "u" "agent-unset" none]
        fixtureInput "dflt"
      = { agentId := "agent-unset", matchedBy := .channel
          binding := some (fixtureBinding "u" "agent-unset" none) } :=
  ⟨(C10_priority_default_100 [] 50 200 "agent-unset" "agent-low" "agent-high" "dflt"
      (by decide) (by decide)).2.2.2.1,
   (C10_priority_default_100 [] 50 200 "agent-unset" "agent-low" "agent-high" "dflt"
      (by decide) (by decide)).2.2.2.2⟩

end Miniclaw.Routing
